import Mathlib

/-!
Verification development for the swagOS2 command pipeline engine
(`src/lib.js`).  The JavaScript source is shallowly embedded: pure
functions become Lean functions, the stateful services become explicit
state passing, and the cooperative single-threaded execution queue
becomes a deterministic step function over an explicit state record.

JavaScript values are modelled as follows:
* strings are `String`;
* the flag values produced by the parser and by verification
  (`string | number | boolean`) are the inductive `FlagVal`, where the
  JS number `NaN` is `FlagVal.num none` (the program only ever converts
  decimal-integer strings, see `jsNumber`);
* `undefined` results of a handler and absent fields are `Option`;
* thrown exceptions are `Except`.
-/

namespace SwagOS

/-- One output line, `{ type, content, loc }` as built throughout
`src/lib.js` (e.g. lines 609-613).  `loc` is `none` where the source
object literal omits the field (e.g. the error returns of the `service`
handler, line 566). -/
structure OutputLine where
  type : String
  content : String
  loc : Option String := none
deriving DecidableEq

/-- A flag value as it exists at runtime: the parser produces strings and
the boolean `true` (lines 1318-1337), and `CommandService.verify` may
overwrite a value with a number (line 420).  `num none` models the JS
number `NaN`. -/
inductive FlagVal where
  | str (s : String)
  | num (n : Option Int)
  | bool (b : Bool)
deriving DecidableEq

/-- JS `typeof` on a flag value. -/
def FlagVal.typeOf : FlagVal → String
  | .str _ => "string"
  | .num _ => "number"
  | .bool _ => "boolean"

/-- JS truthiness of a flag value (`""`, `0`, `NaN` and `false` are
falsy). -/
def FlagVal.truthy : FlagVal → Bool
  | .str s => s ≠ ""
  | .num (some n) => n ≠ 0
  | .num none => false
  | .bool b => b

/-- The flags mapping of a fragment: a JS object, i.e. an ordered
association list with unique keys (insertion order). -/
abbrev Flags := List (String × FlagVal)

/-- Object property read, `flags[k]`; `undefined` is `none`. -/
def Flags.get (fs : Flags) (k : String) : Option FlagVal :=
  (fs.find? (fun p => p.1 = k)).map (·.2)

/-- Object property write `flags[k] = v`: replaces the value in place if
the key exists, otherwise appends (insertion order). -/
def Flags.set (fs : Flags) (k : String) (v : FlagVal) : Flags :=
  if (fs.find? (fun p => p.1 = k)).isSome then
    fs.map (fun p => if p.1 = k then (k, v) else p)
  else
    fs ++ [(k, v)]

/-- A Command Fragment as produced by `OS.parseCommandFragment`
(lines 1340-1344).  `name` is `none` when the stage tokenizes to zero
tokens (JS `undefined` after destructuring line 1305). -/
structure Fragment where
  name : Option String
  args : List String
  flags : Flags
deriving DecidableEq

/-! ## The parser (`OS.parsePipeline`, `OS.parseCommandFragment`,
`OS.parseCommand`, lines 1199-1363) -/

/-- The whitespace characters recognised by JS `String.prototype.trim`
that can occur in this engine's ASCII input. -/
def jsIsWs (c : Char) : Bool :=
  c = ' ' ∨ c = '\t' ∨ c = '\n' ∨ c = '\r' ∨ c = '\x0b' ∨ c = '\x0c'

/-- JS `s.trim()` on a character list. -/
def jsTrim (s : List Char) : List Char :=
  ((s.dropWhile jsIsWs).reverse.dropWhile jsIsWs).reverse

/-- The character scan of `OS.parsePipeline` (lines 1207-1241): `current`
accumulates the stage, `inSingle`/`inDouble`/`escape` are the quote and
escape states, `parts` the emitted stages.  A `|` outside both quote
states flushes the trimmed stage when it is nonempty. -/
def parsePipelineAux : List Char → Bool → Bool → Bool → List Char →
    List String → List String
  | [], _, _, _, current, parts =>
      if jsTrim current ≠ [] then parts ++ [String.mk (jsTrim current)] else parts
  | ch :: rest, inS, inD, esc, current, parts =>
      if esc then
        parsePipelineAux rest inS inD false (current ++ [ch]) parts
      else if ch = '\\' then
        parsePipelineAux rest inS inD true (current ++ [ch]) parts
      else if ch = '\'' ∧ ¬inD then
        parsePipelineAux rest (!inS) inD false (current ++ [ch]) parts
      else if ch = '"' ∧ ¬inS then
        parsePipelineAux rest inS (!inD) false (current ++ [ch]) parts
      else if ch = '|' ∧ ¬inS ∧ ¬inD then
        parsePipelineAux rest inS inD false []
          (if jsTrim current ≠ [] then parts ++ [String.mk (jsTrim current)] else parts)
      else
        parsePipelineAux rest inS inD false (current ++ [ch]) parts

/-- `OS.parsePipeline` (lines 1199-1245): split a raw line into stage
strings at pipes that are outside single- and double-quote state. -/
def parsePipeline (input : String) : List String :=
  parsePipelineAux input.data false false false [] []

/-- The tokenizer loop of `OS.parseCommandFragment` (lines 1258-1303),
returning the tokens together with their `tokenStartedQuoted` marks. -/
def tokenizeFragment : List Char → List Char → Bool → Bool → Bool →
    List (String × Bool) → List (String × Bool)
  | [], current, _, _, startedQ, acc =>
      if current ≠ [] then acc ++ [(String.mk current, startedQ)] else acc
  | '\\' :: next :: rest2, current, inD, inS, startedQ, acc =>
      if next = ' ' ∨ next = '"' ∨ next = '\'' ∨ next = '\\' then
        tokenizeFragment rest2 (current ++ [next]) inD inS startedQ acc
      else
        tokenizeFragment (next :: rest2) (current ++ ['\\']) inD inS startedQ acc
  | ['\\'], current, inD, inS, startedQ, acc =>
      tokenizeFragment [] (current ++ ['\\']) inD inS startedQ acc
  | c :: rest, current, inD, inS, startedQ, acc =>
      if c = '"' ∧ ¬inS then
        tokenizeFragment rest current (!inD) inS
          (if ¬inD ∧ current = [] then true else startedQ) acc
      else if c = '\'' ∧ ¬inD then
        tokenizeFragment rest current inD (!inS)
          (if ¬inS ∧ current = [] then true else startedQ) acc
      else if c = ' ' ∧ ¬inD ∧ ¬inS then
        if current ≠ [] then
          tokenizeFragment rest [] inD inS false (acc ++ [(String.mk current, startedQ)])
        else
          tokenizeFragment rest current inD inS startedQ acc
      else
        tokenizeFragment rest (current ++ [c]) inD inS startedQ acc

/-- Whether the character list `p` is an initial segment of `s`
(JS `startsWith`). -/
def dataStarts : List Char → List Char → Bool
  | [], _ => true
  | _ :: _, [] => false
  | p :: ps, c :: cs => p = c ∧ dataStarts ps cs

/-- JS `String.prototype.split(sep)` for a single-character separator. -/
def splitOnChar (sep : Char) : List Char → List (List Char)
  | [] => [[]]
  | c :: rest =>
      match splitOnChar sep rest with
      | [] => [[]]
      | piece :: pieces =>
          if c = sep then [] :: piece :: pieces else (c :: piece) :: pieces

/-- Classification of the tokens after the command name
(lines 1311-1338): quoted tokens are always positional; unquoted tokens
starting with `--` or `-` (length > 1) are flags, split on `=` (the JS
`split("=")` destructured to `[flag, value]` keeps the piece between the
first and the second separator as the value). -/
def classifyTokens : List (String × Bool) → List String → Flags →
    List String × Flags
  | [], positional, flags => (positional, flags)
  | (token, isQuoted) :: rest, positional, flags =>
      if isQuoted then
        classifyTokens rest (positional ++ [token]) flags
      else if dataStarts ['-', '-'] token.data then
        let flagPart := token.data.drop 2
        if flagPart.contains '=' then
          let pieces := splitOnChar '=' flagPart
          classifyTokens rest positional
            (flags.set (String.mk (pieces.headD []))
              (.str (String.mk ((pieces.drop 1).headD []))))
        else
          classifyTokens rest positional (flags.set (String.mk flagPart) (.bool true))
      else if dataStarts ['-'] token.data ∧ token.data.length > 1 then
        let flagPart := token.data.drop 1
        if flagPart.contains '=' then
          let pieces := splitOnChar '=' flagPart
          classifyTokens rest positional
            (flags.set (String.mk (pieces.headD []))
              (.str (String.mk ((pieces.drop 1).headD []))))
        else
          classifyTokens rest positional (flags.set (String.mk flagPart) (.bool true))
      else
        classifyTokens rest (positional ++ [token]) flags

/-- `OS.parseCommandFragment` (lines 1247-1345). -/
def parseCommandFragment (input : String) : Fragment :=
  let tokens := tokenizeFragment input.data [] false false false []
  let name := (tokens.head?).map (·.1)
  let rest := tokens.drop 1
  let (positional, flags) := classifyTokens rest [] []
  { name := name, args := positional, flags := flags }

/-- `OS.parseCommand` (lines 1353-1363): the parts of the resulting
`OSCommandChain`. -/
def parseCommand (input : String) : List Fragment :=
  (parsePipeline input).map parseCommandFragment

/-! ## Pipe values and `OS.runChain` (lines 1130-1155) -/

/-- The value threaded between fragments by `OS.runChain`.  The source
keeps `pipe = result ?? null` (line 1146), so besides `null` and an
array a single non-`line` object can occur as the pipe. -/
inductive PipeValue where
  | null
  | single (l : OutputLine)
  | seq (ls : List OutputLine)
deriving DecidableEq

/-- The value a handler invocation settles with, as `OS.runSingle`
returns it (line 1196): `undefined` (`empty`), a single output-line
object, or an array of output lines. -/
inductive HandlerResult where
  | empty
  | single (l : OutputLine)
  | seq (ls : List OutputLine)
deriving DecidableEq

/-- The conversion of a handler result into the next pipe value
performed by `OS.runChain` (lines 1141-1147): a `type === "line"` object
wraps into a one-element array, an array passes through, and otherwise
`pipe = result ?? null`. -/
def nextPipe : HandlerResult → PipeValue
  | .empty => .null
  | .single l => if l.type = "line" then .seq [l] else .single l
  | .seq ls => .seq ls

/-- Errors escaping a chain run: an abort (`DOMException AbortError`),
an `OSError` with its message, or an unexpected JS fault.  All are
caught by `CommandExecService.runNext` (lines 225-239). -/
inductive RunErr where
  | abort
  | os (message : String)
  | unexpected
deriving DecidableEq

/-- The fragment loop of `OS.runChain` (lines 1133-1148), parameterized
by the per-fragment step `runSingleF` (in the source, `this.runSingle`)
and the abort state of the cancellation signal. -/
def runChainFrom (runSingleF : Fragment → PipeValue → Except RunErr HandlerResult)
    (signalAborted : Bool) : List Fragment → PipeValue → Except RunErr PipeValue
  | [], pipe => .ok pipe
  | frag :: rest, pipe =>
      if signalAborted then .error .abort
      else
        match runSingleF frag pipe with
        | .error e => .error e
        | .ok r => runChainFrom runSingleF signalAborted rest (nextPipe r)

/-- `OS.runChain` (lines 1130-1155): run the fragment loop starting from
a `null` pipe, then forward every line of a final array pipe to the
output buffer (lines 1150-1152).  Returns the final pipe value together
with the lines handed to `OutputService.add`. -/
def runChain (runSingleF : Fragment → PipeValue → Except RunErr HandlerResult)
    (signalAborted : Bool) (parts : List Fragment) :
    Except RunErr (PipeValue × List OutputLine) :=
  match runChainFrom runSingleF signalAborted parts .null with
  | .error e => .error e
  | .ok pipe =>
      .ok (pipe, match pipe with
        | .seq ls => ls
        | _ => [])

/-! ## The command registry (`CommandService`, lines 252-435) -/

/-- One schema parameter, with exactly the fields the source reads:
`type`, `name`, `short`, `required`, `datatype`, `options`,
`pipeableFrom`, `default` and `description`.  `ptype` stands for the
JS field `type`.  Absent fields are `none` / `false`. -/
structure SchemaParam where
  ptype : String
  name : String
  short : Option String := none
  required : Bool := false
  datatype : Option String := none
  options : Option (List String) := none
  pipeableFrom : Option String := none
  default : Option FlagVal := none
  description : Option String := none
deriving DecidableEq

/-- A command body as stored by `CommandService.defineCommand`
(lines 277-289): the `options` object is flattened into `description`,
`alias` and `hidden`; `aliasOf` is stamped on alias clones.  The handler
function is kept outside the table (handlers are embedded separately
where a claim needs them). -/
structure CmdBody where
  description : Option String := none
  aliasName : Option String := none
  hidden : Bool := false
  aliasOf : Option String := none
  schema : List SchemaParam
deriving DecidableEq

/-- The `CommandService` state: the enabled gate, the `commands` Map
(insertion-ordered association list) and `registeredCommands`, a JS
`Set` of `Set`s of names, i.e. an insertion-ordered list of name sets
in which distinct `Set` objects with equal contents both remain. -/
structure CmdRegistry where
  enabled : Bool
  commands : List (String × CmdBody)
  registered : List (List String)
deriving DecidableEq

/-- JS `Map.get`: the first (and only) entry for the key. -/
def mapGet (m : List (String × CmdBody)) (k : String) : Option CmdBody :=
  (m.find? (fun p => p.1 = k)).map (·.2)

/-- JS `Map.get` with a possibly-`undefined` key; `undefined` is not a
key of the table. -/
def mapGetOpt (m : List (String × CmdBody)) (k : Option String) : Option CmdBody :=
  k.bind (mapGet m)

/-- JS `Map.set`: replace in place or append. -/
def mapSet (m : List (String × CmdBody)) (k : String) (v : CmdBody) :
    List (String × CmdBody) :=
  if (m.find? (fun p => p.1 = k)).isSome then
    m.map (fun p => if p.1 = k then (k, v) else p)
  else
    m ++ [(k, v)]

/-- The flattened-membership test
`Array.from(registeredCommands).map(x => Array.from(x)).flat().includes(name)`
used by `getCommand`, `unregisterCommand` and `OS.runSingle`
(lines 300, 312, 1169). -/
def registeredFlatContains (regs : List (List String)) (name : Option String) : Bool :=
  match name with
  | some n => regs.any (fun pair => pair.contains n)
  | none => false

/-- The guard `CommandService.registeredCommands.has(name)` of
`registerCommand` (line 327).  `registeredCommands` is a `Set` whose
elements are `Set` objects; `has` compares the string `name` against
each element with SameValueZero, and a string is never the same value
as a `Set` object, so the test is false for every element. -/
def registeredSetHasString (regs : List (List String)) (_name : String) : Bool :=
  regs.any (fun _pair => false)

/-- `CommandService.defineCommand` (lines 277-289): store the body; if
it declares an alias, store a clone without the alias marker under the
alias name, stamped `aliasOf`. -/
def defineCommand (reg : CmdRegistry) (name : String) (body : CmdBody) : CmdRegistry :=
  if ¬reg.enabled then reg
  else
    let reg1 := { reg with commands := mapSet reg.commands name body }
    match body.aliasName with
    | none => reg1
    | some a =>
        let aliasBody := { body with aliasName := none, aliasOf := some name }
        { reg1 with commands := mapSet reg1.commands a aliasBody }

/-- `CommandService.registerCommand` (lines 325-338): the (ineffective)
idempotence guard, a throw on unknown names, and the append of a fresh
name `Set` holding the name and its alias. -/
def registerCommand (reg : CmdRegistry) (name : String) : Except String CmdRegistry :=
  if ¬reg.enabled then .ok reg
  else if registeredSetHasString reg.registered name then .ok reg
  else
    match mapGet reg.commands name with
    | none => .error ("Cannot register unknown command: \"" ++ name ++ "\"")
    | some entry =>
        let pair :=
          match entry.aliasName with
          | some a => if a = name then [name] else [name, a]
          | none => [name]
        .ok { reg with registered := reg.registered ++ [pair] }

/-- `CommandService.unregisterCommand` (lines 310-323): gated on the
flattened membership test, throws when the `commands` Map lacks the
name, then deletes the name and its alias from every stored name set. -/
def unregisterCommand (reg : CmdRegistry) (name : String) : Except String CmdRegistry :=
  if ¬reg.enabled then .ok reg
  else if ¬registeredFlatContains reg.registered (some name) then .ok reg
  else
    match mapGet reg.commands name with
    | none => .error ("Cannot unregister unknown command: \"" ++ name ++ "\"")
    | some entry =>
        let names :=
          match entry.aliasName with
          | some a => [name, a]
          | none => [name]
        .ok { reg with
              registered := reg.registered.map (fun pair =>
                pair.filter (fun n => ¬names.contains n)) }

/-- `CommandService.bulkRegister` (lines 358-363); a throw from
`registerCommand` propagates and stops the loop. -/
def bulkRegister (reg : CmdRegistry) (names : List String) : Except String CmdRegistry :=
  if ¬reg.enabled then .ok reg
  else names.foldlM registerCommand reg

/-! ## `CommandService.verify` (lines 372-434) -/

/-- Whether a string contains a decimal digit: exactly the strings on
which the unanchored JS regex `-?\d+` (written between slashes in the
source) tests true (the `-?` part is
optional, so any digit anywhere matches). -/
def jsHasDigit (s : String) : Bool :=
  s.data.any Char.isDigit

/-- JS string coercion of a flag value, as applied by
`RegExp.prototype.test` to its argument. -/
def flagValStr : FlagVal → String
  | .str s => s
  | .bool b => if b then "true" else "false"
  | .num (some n) => toString n
  | .num none => "NaN"

/-- The numeric-pattern test applied to `flags[flagName]` at line 418. -/
def jsTestNumeric (v : FlagVal) : Bool :=
  jsHasDigit (flagValStr v)

/-- Value of a digit list, when nonempty and all digits. -/
def digitsToNat (ds : List Char) : Option Nat :=
  if ds ≠ [] ∧ ds.all Char.isDigit then
    some (ds.foldl (fun a c => a * 10 + (c.toNat - 48)) 0)
  else none

/-- The decimal-integer fragment of JS `Number(string)`: optional sign,
digits, surrounding whitespace allowed; anything else yields `NaN`
(`none`).  This is exact for every string the verification theorems
below evaluate it on; JS would additionally convert decimal-point,
exponent and hex forms, which no claim exercises. -/
def jsNumberOfString (s : String) : Option Int :=
  match jsTrim s.data with
  | '-' :: ds => (digitsToNat ds).map (fun n => -(n : Int))
  | '+' :: ds => (digitsToNat ds).map (fun n => (n : Int))
  | ds => (digitsToNat ds).map (fun n => (n : Int))

/-- JS `Number(v)` on a runtime flag value (`undefined` gives `NaN`). -/
def jsNumberCoerce : Option FlagVal → Option Int
  | some (.str s) => jsNumberOfString s
  | some (.bool b) => some (if b then 1 else 0)
  | some (.num n) => n
  | none => none

/-- The result object of `CommandService.verify` together with the
final state of the (mutated-in-place) flags object and of the registry
(which `verify` may change through `unregisterCommand` on definition
defects). -/
structure VerifyOut where
  valid : Bool
  error : Option String
  flags : Flags
  registry : CmdRegistry
deriving DecidableEq

/-- The `unregisterCommand` call sites inside `verify` (lines 412, 428):
at those points the command is present in the `commands` Map, so the
throwing branch of `unregisterCommand` is unreachable; the fallback to
the unchanged registry is dead code. -/
def unregisterTotal (reg : CmdRegistry) (name : String) : CmdRegistry :=
  match unregisterCommand reg name with
  | .ok r => r
  | .error _ => reg

/-- The membership test `param.options.includes(args[positionalIndex])`
of line 393; the argument is `undefined` (never a member) when the
position is past the supplied arguments. -/
def optsOk (opts : List String) (args : List String) (idx : Nat) : Bool :=
  match args[idx]? with
  | some a => opts.contains a
  | none => false

/-- The positional-parameter loop of `verify` (lines 387-397):
`positionalIndex` consumes positions in schema order; a required
parameter whose position is past the supplied arguments fails with the
missing-argument message, and an `options` list is checked against the
argument at the current position (`undefined` when absent, as in JS). -/
def checkPositionals (args : List String) : List SchemaParam → Nat → Option String
  | [], _ => none
  | param :: rest, idx =>
      if param.required ∧ args.length ≤ idx then
        some ("Missing required argument: \"" ++ param.name ++ "\"")
      else
        match param.options with
        | some opts =>
            if ¬optsOk opts args idx then
              some ("Invalid value for argument \"" ++ param.name ++
                "\": expected one of \"" ++ String.intercalate "\", \"" opts ++
                "\", got \"" ++ ((args[idx]?).getD "undefined") ++ "\"")
            else checkPositionals args rest (idx + 1)
        | none => checkPositionals args rest (idx + 1)

/-- The required-flag loop of `verify` (lines 399-403).  When a
parameter has no `short` name, the JS lookup `flags[param.short]` reads
the property named `"undefined"`. -/
def checkRequiredFlags (flags : Flags) : List SchemaParam → Option String
  | [] => none
  | param :: rest =>
      if param.required ∧ (flags.get param.name).isNone ∧
          (flags.get (param.short.getD "undefined")).isNone then
        some ("Missing required flag: \"--" ++ param.name ++ "\"")
      else checkRequiredFlags flags rest

/-- The supplied-flag loop of `verify` (lines 405-431), iterating the
snapshot of `Object.keys(flags)`: resolve each key against the flag
schema (unknown flags pass through), fail on a missing `datatype`
definition (unregistering the command), coerce values matching the
numeric pattern in place, compare runtime type with `datatype`, and
check a truthy `default` against the datatype. -/
def verifyFlagsLoop (cmdName : String) (flagSchema : List SchemaParam) :
    List String → Flags → CmdRegistry → VerifyOut
  | [], flags, reg => { valid := true, error := none, flags := flags, registry := reg }
  | k :: keys, flags, reg =>
      match flagSchema.find? (fun s => s.name = k ∨ s.short = some k) with
      | none => verifyFlagsLoop cmdName flagSchema keys flags reg
      | some flagDef =>
          match flagDef.datatype with
          | none =>
              { valid := false,
                error := some ("Flag definition for \"--" ++ flagDef.name ++
                  "\" is missing datatype (string, num, bool)"),
                flags := flags, registry := unregisterTotal reg cmdName }
          | some flagType =>
              let actualType0 :=
                match flags.get k with
                | some v => v.typeOf
                | none => "undefined"
              let doCoerce :=
                match flags.get k with
                | some v => jsTestNumeric v
                | none => jsHasDigit "undefined"
              let actualType := if doCoerce then "number" else actualType0
              let flags1 :=
                if doCoerce then flags.set k (.num (jsNumberCoerce (flags.get k)))
                else flags
              if flagType ≠ actualType then
                { valid := false,
                  error := some ("Invalid value for flag \"--" ++ flagDef.name ++
                    "\": expected " ++ flagType ++ ", got " ++ actualType),
                  flags := flags1, registry := reg }
              else
                match flagDef.default with
                | some d =>
                    if d.truthy ∧ d.typeOf ≠ flagType then
                      { valid := false,
                        error := some ("Invalid default value for flag \"--" ++
                          flagDef.name ++ "\""),
                        flags := flags1, registry := unregisterTotal reg cmdName }
                    else verifyFlagsLoop cmdName flagSchema keys flags1 reg
                | none => verifyFlagsLoop cmdName flagSchema keys flags1 reg

/-- `CommandService.verify` (lines 372-434).  Returns `none` when the
service is disabled (the JS `return` with no value); otherwise the
result object plus the final flags object and registry. -/
def verify (reg : CmdRegistry) (name : Option String) (args : List String)
    (flags : Flags) : Option VerifyOut :=
  if ¬reg.enabled then none
  else
    match mapGetOpt reg.commands name with
    | none =>
        some { valid := false,
               error := some ("Unknown command: \"" ++ name.getD "undefined" ++ "\""),
               flags := flags, registry := reg }
    | some entry =>
        let positionalSchema := entry.schema.filter (fun s => s.ptype = "positional")
        let flagSchema := entry.schema.filter
          (fun s => s.ptype = "flag" ∨ s.ptype = "option")
        match checkPositionals args positionalSchema 0 with
        | some err =>
            some { valid := false, error := some err, flags := flags, registry := reg }
        | none =>
            match checkRequiredFlags flags flagSchema with
            | some err =>
                some { valid := false, error := some err, flags := flags, registry := reg }
            | none =>
                some (verifyFlagsLoop (name.getD "undefined") flagSchema
                  (flags.map (·.1)) flags reg)

/-! ## The built-in command table (`defineCommands`, lines 437-924) -/

/-- Schema of the `service` command (lines 442-471). -/
def serviceSchema : List SchemaParam :=
  [ { ptype := "positional", name := "action",
      description := some "The action to perform",
      required := true,
      options := some ["list", "enable", "disable", "logs"] },
    { ptype := "positional", name := "service",
      description := some "The service to enable/disable (required for enable/disable action)",
      required := false },
    { ptype := "flag", name := "confirm",
      description := some "Some services are critical for the operation of the OS. Use this flag to confirm that you want to enable/disable such services",
      required := false, datatype := some "boolean" },
    { ptype := "flag", name := "clear", short := some "c",
      description := some "Clear the service logs.",
      required := false, datatype := some "boolean" } ]

/-- Schema of the `print` command (lines 589-604). -/
def printSchema : List SchemaParam :=
  [ { ptype := "positional", name := "text",
      description := some "The text to print",
      required := true, pipeableFrom := some "text" },
    { ptype := "positional", name := "loc_text",
      description := some "The text to show in the location part of the line",
      short := some "l", datatype := some "string" } ]

/-- Schema of the `help` command (lines 660-681). -/
def helpSchema : List SchemaParam :=
  [ { ptype := "flag", name := "aliases", short := some "a",
      description := some "Show command aliases in list",
      datatype := some "boolean" },
    { ptype := "positional", name := "command",
      description := some "The command to get help for",
      required := false },
    { ptype := "flag", name := "verbose", short := some "v",
      description := some "Show detailed help information for each command",
      datatype := some "boolean" } ]

/-- Schema of the `findtext` command (lines 828-852). -/
def findtextSchema : List SchemaParam :=
  [ { ptype := "positional", name := "text",
      description := some "The text to find",
      required := true, pipeableFrom := some "text" },
    { ptype := "flag", name := "ignorecase", short := some "i",
      description := some "Ignore case when searching",
      required := false, datatype := some "boolean" },
    { ptype := "flag", name := "regex", short := some "r",
      description := some "Treat the search text as a regular expression",
      required := false, datatype := some "boolean" } ]

/-- The state of `CommandService` after `init` (line 260) and
`defineCommands` has stored all eight definitions (lines 438-921), in
source order, before `bulkRegister` runs. -/
def definedRegistry : CmdRegistry :=
  let r0 : CmdRegistry := { enabled := true, commands := [], registered := [] }
  let r1 := defineCommand r0 "service"
    { description := some "Lists all available services and their status",
      schema := serviceSchema }
  let r2 := defineCommand r1 "clear"
    { description := some "Clears the output buffer and the console",
      aliasName := some "cls", schema := [] }
  let r3 := defineCommand r2 "print"
    { description := some "Prints the provided arguments to the console",
      schema := printSchema }
  let r4 := defineCommand r3 "obuffer"
    { description := some "Outputs the current output buffer",
      hidden := true, schema := [] }
  let r5 := defineCommand r4 "commandline"
    { description := some "Outputs a new command line for input",
      hidden := true, schema := [] }
  let r6 := defineCommand r5 "linecount"
    { description := some "Outputs the number of lines",
      aliasName := some "lc", schema := [] }
  let r7 := defineCommand r6 "help"
    { description := some "Lists all available commands. To get help with a specific command, use \"help commandname\"",
      aliasName := some "?", schema := helpSchema }
  defineCommand r7 "findtext"
    { description := some "Find text", aliasName := some "find",
      schema := findtextSchema }

/-- The argument of the `bulkRegister` call at line 923. -/
def builtinNames : List String :=
  ["print", "obuffer", "commandline", "linecount", "help", "clear", "service", "findtext"]

/-- Value of an `Except` with a fallback for the error case. -/
def exceptGetD (e : Except String CmdRegistry) (d : CmdRegistry) : CmdRegistry :=
  match e with
  | .ok r => r
  | .error _ => d

/-- The registry state after `defineCommands` has completed: all eight
commands defined and bulk-registered (`builtinRegistry_ok` below checks
that the registration loop does not throw).  `OS.validateCommands`
(line 1048), which runs next at construction, unregisters nothing on
this table because every flag-kind parameter carries a valid
`datatype`. -/
def builtinRegistry : CmdRegistry :=
  exceptGetD (bulkRegister definedRegistry builtinNames) definedRegistry

deriving instance DecidableEq for Except

theorem builtinRegistry_ok :
    bulkRegister definedRegistry builtinNames = .ok builtinRegistry := by
  decide

/-! ## The diagnostics log and the `service` command handler
(lines 119-149 and 472-572) -/

/-- One entry of `DiagnosticService.diagnosticData` (line 143). -/
structure DiagEvent where
  action : String
  timestamp : Int
deriving DecidableEq

/-- The `enabled` flags of the five services, in the order of the
`serviceMap` object (lines 547-553). -/
structure Services where
  output : Bool
  commandexec : Bool
  command : Bool
  diagnostic : Bool
  savior : Bool
deriving DecidableEq

/-- The uncompressed display line of one diagnostic entry
(line 478): `[` timestamp `] ` action, with the timestamp rendered by
`os.timestamp` — abstracted here as the function `fmt`. -/
def diagLine (fmt : Int → String) (e : DiagEvent) : String :=
  "[" ++ fmt e.timestamp ++ "] " ++ e.action

/-- The compression loop of the `logs` branch (lines 480-500).  The
state is the flushed output `done`, the entry currently sitting at
`compressed[compressed.length - 1]` (`pending`), and `increment`.  A
repeat of `pending` bumps `increment`; a different line flushes
`pending`, suffixed `(xN)` when `increment > 0`.  When the input ends,
`pending` is left in the output as-is — an `increment` accumulated on a
final run is discarded without appending its suffix. -/
def compressLoop : List String → List String → Option String → Nat → List String
  | [], done, none, _ => done
  | [], done, some pending, _ => done ++ [pending]
  | cur :: rest, done, none, _ => compressLoop rest done (some cur) 0
  | cur :: rest, done, some pending, increment =>
      if cur = pending then
        compressLoop rest done (some pending) (increment + 1)
      else if increment > 0 then
        compressLoop rest
          (done ++ [pending ++ " (x" ++ toString (increment + 1) ++ ")"])
          (some cur) 0
      else
        compressLoop rest (done ++ [pending]) (some cur) 0

/-- The timestamp captured by the anchored regex matching `[` then any
characters other than `]` then `]` (line 508): present when the line
starts with `[` and contains a later `]`. -/
def stampOf (line : String) : Option String :=
  match line.data with
  | '[' :: rest =>
      if rest.contains ']' then some (String.mk (rest.takeWhile (fun c => c ≠ ']')))
      else none
  | _ => none

/-- Replacing the leading `[` stamp `]` of a line by a same-length blank
stamp (line 515). -/
def blankStamp (line : String) : String :=
  match stampOf line with
  | none => line
  | some stamp =>
      "[" ++ String.mk (List.replicate stamp.data.length ' ') ++ "]" ++
        String.mk ((line.data.drop 1).dropWhile (fun c => c ≠ ']') |>.drop 1)

/-- The timestamp-blanking loop (lines 502-519): a line whose stamp
equals the last visibly kept stamp is blanked; lines that do not match
the stamp pattern are skipped and leave `lastStamp` unchanged. -/
def blankLoop (lastStamp : Option String) : List String → List String
  | [] => []
  | line :: rest =>
      match stampOf line with
      | none => line :: blankLoop lastStamp rest
      | some stamp =>
          if some stamp = lastStamp then
            blankStamp line :: blankLoop lastStamp rest
          else
            line :: blankLoop (some stamp) rest

/-- The final mapping of the `logs` branch (lines 521-525): split each
line at the anchored `[` stamp `] ` pattern into a location part and a
content part; a line that does not match becomes content with an empty
location. -/
def splitLogLine (line : String) : OutputLine :=
  match line.data with
  | '[' :: rest =>
      let stamp := rest.takeWhile (fun c => c ≠ ']')
      let afterStamp := rest.dropWhile (fun c => c ≠ ']')
      match afterStamp with
      | ']' :: ' ' :: content =>
          { type := "line", content := String.mk content,
            loc := some ("[" ++ String.mk stamp ++ "]") }
      | _ => { type := "line", content := line, loc := some "" }
  | _ => { type := "line", content := line, loc := some "" }

/-- The full display transform of the `logs` branch (lines 478-525),
applied to the diagnostic entries as they stand after the optional
`--clear` truncation. -/
def logsDisplay (fmt : Int → String) (entries : List DiagEvent) : List OutputLine :=
  (blankLoop none
    (compressLoop (entries.map (diagLine fmt)) [] none 0)).map splitLogLine

/-- Read accessor for a service flag by its `serviceMap` key. -/
def Services.get (sv : Services) : String → Option Bool
  | "output" => some sv.output
  | "commandexec" => some sv.commandexec
  | "command" => some sv.command
  | "diagnostic" => some sv.diagnostic
  | "savior" => some sv.savior
  | _ => none

/-- Write accessor for a service flag by its `serviceMap` key
(`service.enable()` / `service.disable()` set the flag; keys outside the
map never reach this function). -/
def Services.set (sv : Services) (key : String) (b : Bool) : Services :=
  match key with
  | "output" => { sv with output := b }
  | "commandexec" => { sv with commandexec := b }
  | "command" => { sv with command := b }
  | "diagnostic" => { sv with diagnostic := b }
  | "savior" => { sv with savior := b }
  | _ => sv

/-- JS `s.toLowerCase()` for the ASCII range. -/
def jsToLower (s : String) : String :=
  String.mk (s.data.map Char.toLower)

/-- The `service` display names, in the order of the `services` array of
the `list` branch (line 533), each paired with a selector for its
enabled flag. -/
def serviceListOrder : List (String × (Services → Bool)) :=
  [ ("OutputService", Services.output),
    ("CommandExecService", Services.commandexec),
    ("CommandService", Services.command),
    ("DiagnosticService", Services.diagnostic),
    ("SaviorService", Services.savior) ]

/-- JS `padEnd` with spaces. -/
def padEnd (s : String) (n : Nat) : String :=
  s ++ String.mk (List.replicate (n - s.data.length) ' ')

/-- An ASCII apostrophe, for the class attributes of the `list` branch
markup. -/
def apos : String := "'"

/-- The critical-service list of the `disable` branch (line 556). -/
def criticalServices : List String :=
  ["commandexec", "savior", "command"]

/-- The handler of the `service` command (lines 472-572), acting on the
service flags and the diagnostics log.  `fmt` abstracts `os.timestamp`
with the template of line 478.  Falling off the end of the JS function
(an action outside the four branches, unreachable past verification)
returns `undefined`, i.e. `HandlerResult.empty`. -/
def serviceFn (fmt : Int → String) (args : List String) (flags : Flags)
    (sv : Services) (diag : List DiagEvent) :
    HandlerResult × Services × List DiagEvent :=
  match args[0]? with
  | none => (.empty, sv, diag)
  | some action =>
    if action = "logs" then
      let diag1 := if (flags.get "clear").elim false FlagVal.truthy then [] else diag
      (.seq (logsDisplay fmt diag1), sv, diag1)
    else if action = "list" then
      let maxLen := 18
      (.seq (serviceListOrder.map (fun p =>
        { type := "html",
          content := padEnd p.1 maxLen ++ " : " ++
            (if p.2 sv then
              "<span class=" ++ apos ++ "enabled" ++ apos ++ ">ENABLED</span>"
            else
              "<span class=" ++ apos ++ "disabled" ++ apos ++ ">DISABLED</span>"),
          loc := some "" })), sv, diag)
    else if action = "enable" ∨ action = "disable" then
      match args[1]? with
      | none =>
          (.single
            { type := "error",
              content := "Service name is required for enable/disable action" },
            sv, diag)
      | some serviceName =>
          if serviceName = "" then
            (.single
              { type := "error",
                content := "Service name is required for enable/disable action" },
              sv, diag)
          else
            let key := jsToLower serviceName
            match sv.get key with
            | none =>
                (.single
                  { type := "error",
                    content := "Unknown service: \"" ++ serviceName ++
                      "\". Valid services are: output, commandexec, command, diagnostic, savior" },
                  sv, diag)
            | some _ =>
                if action = "enable" then
                  (.single
                    { type := "line",
                      content := "Enabled " ++ serviceName ++ " service",
                      loc := some "" },
                    sv.set key true, diag)
                else if criticalServices.contains key ∧
                    ¬((flags.get "confirm").elim false FlagVal.truthy) then
                  (.single
                    { type := "error",
                      content := "The \"" ++ serviceName ++
                        "\" service is critical for the operation of the OS. Use --confirm flag to confirm that you want to disable it." },
                    sv, diag)
                else
                  (.single
                    { type := "line",
                      content := "Disabled " ++ serviceName ++ " service",
                      loc := some "" },
                    sv.set key false, diag)
    else (.empty, sv, diag)

/-! ## `OS.runSingle` (lines 1157-1197) -/

/-- The short-flag normalization of `runSingle` (lines 1183-1187),
applied to the (post-verification) fragment flags. -/
def normalizeFlags (flagSchema : List SchemaParam) (flags : Flags) : Flags :=
  flags.foldl (fun acc p =>
    match flagSchema.find? (fun s => s.short = some p.1) with
    | some flagDef => acc.set flagDef.name p.2
    | none => acc.set p.1 p.2) []

/-- `OS.runSingle` (lines 1157-1197) specialized to a fragment whose
table entry carries the `service` handler: verification (whose flag
coercion writes back into the fragment's flags object), the abort
check, the registration check, short-flag normalization, the handler
invocation, and the conversion of an error-kind result into a thrown
`OSError`.  The service flags and diagnostics log are returned on every
path — state already mutated survives a throw. -/
def runSingleService (fmt : Int → String) (frag : Fragment) (signalAborted : Bool)
    (reg : CmdRegistry) (sv : Services) (diag : List DiagEvent) :
    Except RunErr HandlerResult × Services × List DiagEvent :=
  match verify reg frag.name frag.args frag.flags with
  | none => (.error (.os "CommandService is disabled."), sv, diag)
  | some verification =>
      if signalAborted then (.error .abort, sv, diag)
      else if ¬registeredFlatContains verification.registry.registered frag.name then
        (.error (.os ("Unknown command: \"" ++ frag.name.getD "undefined" ++ "\"")), sv, diag)
      else if ¬verification.valid then
        (.error (.os (verification.error.getD "undefined")), sv, diag)
      else
        match mapGetOpt verification.registry.commands frag.name with
        | none => (.error .unexpected, sv, diag)
        | some entry =>
            let flagSchema := entry.schema.filter
              (fun s => s.ptype = "flag" ∨ s.ptype = "option")
            let normalizedFlags := normalizeFlags flagSchema verification.flags
            let (result, sv1, diag1) :=
              serviceFn fmt frag.args normalizedFlags sv diag
            match result with
            | .single l =>
                if l.type = "error" then (.error (.os l.content), sv1, diag1)
                else (.ok result, sv1, diag1)
            | _ => (.ok result, sv1, diag1)

/-! ## The execution queue (`CommandExecService`, lines 151-250)

The source runs on one cooperative JS thread: `enqueue`, `interrupt`,
`enable`, `disable` and the settling of a running chain (the `finally`
block of `runNext`) are the atomic events that touch the queue state.
`ExecState` carries the observable fields plus ghost histories: the
ids accepted by `enqueue` (`enqHist`), the ids whose run started
(`started`), the ids whose deferred result was resolved (`resolved`),
and the ids whose stored reject hook was invoked (`rejected`) — the
source stores `currentReject` (line 217) but contains no call to it, so
no event appends to `rejected`. -/

/-- The `CommandExecService` queue state.  `aborted` is the
`controller.signal.aborted` flag of the most recent `AbortController`
(line 215); `running` holds the chain id taken by `runNext`. -/
structure ExecState where
  queue : List Nat
  running : Option Nat
  aborted : Bool
  enabled : Bool
  enqHist : List Nat
  started : List Nat
  resolved : List Nat
  rejected : List Nat
deriving DecidableEq

/-- The atomic events of the queue: a call to `enqueue` with a chain id,
the settling of the in-flight chain (the `try`/`catch`/`finally` of
`runNext`, lines 219-248, which resolves the deferred result on every
path), a call to `interrupt`, and the enable/disable toggles. -/
inductive ExecEvent where
  | enqueue (id : Nat)
  | finish
  | interrupt
  | enable
  | disable
deriving DecidableEq

/-- The head of `runNext` (lines 205-217): no-op when disabled, already
running, or the queue is empty; otherwise shift the queue head, mark it
running, and create a fresh (unaborted) controller. -/
def tryRunNext (s : ExecState) : ExecState :=
  if ¬s.enabled then s
  else if s.running.isSome then s
  else
    match s.queue with
    | [] => s
    | c :: rest =>
        { s with queue := rest, running := some c, aborted := false,
                 started := s.started ++ [c] }

/-- One atomic event of `CommandExecService`:
`enqueue` (lines 195-203) pushes when enabled and calls `runNext`;
`finish` models the settling of the awaited chain — the deferred result
resolves on every path (lines 224, 229, 233, 238), the running slot is
released, and `runNext` is attempted again only if the controller was
not aborted (lines 240-248); `interrupt` (lines 174-184) clears the
pending queue and aborts the current controller when one is in flight;
`enable`/`disable` (lines 164-172) toggle the gate. -/
def execStep (s : ExecState) : ExecEvent → ExecState
  | .enqueue id =>
      if ¬s.enabled then s
      else tryRunNext { s with queue := s.queue ++ [id], enqHist := s.enqHist ++ [id] }
  | .finish =>
      match s.running with
      | none => s
      | some c =>
          let s1 := { s with running := none, resolved := s.resolved ++ [c] }
          if s.aborted then s1 else tryRunNext s1
  | .interrupt =>
      if ¬s.enabled then s
      else { s with queue := [],
                    aborted := if s.running.isSome then true else s.aborted }
  | .enable => { s with enabled := true }
  | .disable => { s with enabled := false }

/-- The state right after `CommandExecService.init` (lines 186-193). -/
def execInit : ExecState :=
  { queue := [], running := none, aborted := false, enabled := true,
    enqHist := [], started := [], resolved := [], rejected := [] }

/-- Replay a list of events from the initial state. -/
def execRun (events : List ExecEvent) : ExecState :=
  events.foldl execStep execInit

/-- The single-flight/FIFO invariant: every started chain except the one
currently running has already had its result resolved, in start order;
and the starts followed by the still-queued chains form a subsequence of
the accepted enqueue history, so starts happen in enqueue order. -/
def ExecInv (s : ExecState) : Prop :=
  s.started = s.resolved ++ s.running.toList ∧
    (s.started ++ s.queue).Sublist s.enqHist ∧
    s.rejected = []

theorem execInit_inv : ExecInv execInit := by
  refine ⟨rfl, ?_, rfl⟩
  simp [execInit]

theorem tryRunNext_inv (s : ExecState) (h : ExecInv s) : ExecInv (tryRunNext s) := by
  obtain ⟨h1, h2, h3⟩ := h
  unfold tryRunNext
  split
  · exact ⟨h1, h2, h3⟩
  · split
    · exact ⟨h1, h2, h3⟩
    · rename_i _ hns
      split
      · exact ⟨h1, h2, h3⟩
      · rename_i c rest hq
        have hrun2 : s.running = none := by
          cases hh : s.running
          · rfl
          · rw [hh] at hns; simp at hns
        rw [hrun2] at h1
        simp only [Option.toList_none, List.append_nil] at h1
        refine ⟨?_, ?_, h3⟩
        · show s.started ++ [c] = s.resolved ++ (some c).toList
          rw [h1, Option.toList_some]
        · show (s.started ++ [c] ++ rest).Sublist s.enqHist
          rw [List.append_assoc]
          show (s.started ++ (c :: rest)).Sublist s.enqHist
          rw [← hq]
          exact h2

theorem execStep_inv (s : ExecState) (e : ExecEvent) (h : ExecInv s) :
    ExecInv (execStep s e) := by
  obtain ⟨h1, h2, h3⟩ := h
  cases e with
  | enqueue id =>
      simp only [execStep]
      split
      · exact ⟨h1, h2, h3⟩
      · apply tryRunNext_inv
        refine ⟨h1, ?_, h3⟩
        show (s.started ++ (s.queue ++ [id])).Sublist (s.enqHist ++ [id])
        rw [← List.append_assoc]
        exact h2.append (List.Sublist.refl [id])
  | finish =>
      simp only [execStep]
      split
      · exact ⟨h1, h2, h3⟩
      · rename_i c hrun
        rw [hrun, Option.toList_some] at h1
        have base : ExecInv { s with running := none, resolved := s.resolved ++ [c] } := by
          refine ⟨?_, ?_, h3⟩
          · show s.started = (s.resolved ++ [c]) ++ (none : Option Nat).toList
            rw [Option.toList_none, List.append_nil, h1]
          · exact h2
        split
        · exact base
        · exact tryRunNext_inv _ base
  | interrupt =>
      simp only [execStep]
      split
      · exact ⟨h1, h2, h3⟩
      · refine ⟨h1, ?_, h3⟩
        show (s.started ++ []).Sublist s.enqHist
        rw [List.append_nil]
        exact (List.sublist_append_left s.started s.queue).trans h2
  | enable => exact ⟨h1, h2, h3⟩
  | disable => exact ⟨h1, h2, h3⟩

theorem execRun_inv (events : List ExecEvent) : ExecInv (execRun events) := by
  induction events using List.reverseRecOn with
  | nil => exact execInit_inv
  | append_singleton es e ih =>
      rw [execRun, List.foldl_append]
      exact execStep_inv _ e ih


/-! ## Claim-side statement of the logs compression

`claimCompressFuel` renders the display compression the way the
(amended) specification describes it: each maximal run of identical
adjacent lines collapses into its first line, carrying a `(xN)` suffix
when another line follows the run and no suffix when the run ends the
log.  It recurses on the remainder after the head run; since every step
consumes at least one element, the length of the list bounds the
recursion depth and the fuel-exhausted branch is unreachable from
`claimCompress`. -/
def claimCompressFuel : Nat → List String → List String
  | _, [] => []
  | 0, a :: _ => [a]
  | fuel + 1, a :: rest =>
      let k := (rest.takeWhile (fun x => x = a)).length
      let rest2 := rest.dropWhile (fun x => x = a)
      if rest2.isEmpty then [a]
      else
        (if k > 0 then a ++ " (x" ++ toString (k + 1) ++ ")" else a) ::
          claimCompressFuel fuel rest2

/-- Run-length display compression as the amended claim states it. -/
def claimCompress (xs : List String) : List String :=
  claimCompressFuel xs.length xs

/-- The display transform of the `logs` branch as the amended claim
states it: compress maximal runs (`claimCompress`), blank a timestamp
equal to the most recently kept one (`blankLoop`), split each line into
content and location (`splitLogLine`). -/
def claimLogsDisplay (fmt : Int → String) (entries : List DiagEvent) : List OutputLine :=
  (blankLoop none (claimCompress (entries.map (diagLine fmt)))).map splitLogLine

/-- Length bound used for fuel arguments. -/
theorem lengthDropWhileLe {α : Type} (p : α → Bool) (l : List α) :
    (l.dropWhile p).length ≤ l.length :=
  (List.dropWhile_sublist p).length_le

/-- Fuel irrelevance for `claimCompressFuel`. -/
theorem claimCompressFuel_congr :
    ∀ (f1 f2 : Nat) (l : List String), l.length ≤ f1 → l.length ≤ f2 →
      claimCompressFuel f1 l = claimCompressFuel f2 l := by
  intro f1
  induction f1 with
  | zero =>
      intro f2 l h1 _
      have : l = [] := List.eq_nil_of_length_eq_zero (Nat.le_zero.mp h1)
      subst this
      cases f2 <;> rfl
  | succ g1 ih =>
      intro f2 l h1 h2
      cases l with
      | nil => cases f2 <;> rfl
      | cons a rest =>
          cases f2 with
          | zero => simp at h2
          | succ g2 =>
              simp only [claimCompressFuel]
              have hd : (rest.dropWhile (fun x => x = a)).length ≤ rest.length :=
                lengthDropWhileLe _ _
              simp only [List.length_cons] at h1 h2
              rw [ih g2 (rest.dropWhile (fun x => x = a)) (by omega) (by omega)]

/-- Absorption of a run of the pending entry by the compression loop:
each repeat only bumps the increment. -/
theorem compressLoop_run (a : String) :
    ∀ (k : Nat) (rest done : List String) (inc : Nat),
      compressLoop (List.replicate k a ++ rest) done (some a) inc =
        compressLoop rest done (some a) (inc + k) := by
  intro k
  induction k with
  | zero => intro rest done inc; rfl
  | succ k ih =>
      intro rest done inc
      rw [List.replicate_succ, List.cons_append]
      have h1 : compressLoop (a :: (List.replicate k a ++ rest)) done (some a) inc =
          compressLoop (List.replicate k a ++ rest) done (some a) (inc + 1) := by
        simp [compressLoop]
      rw [h1, ih]
      congr 1
      omega

/-- Every element of a `takeWhile` result satisfies the predicate. -/
theorem memTakeWhile {α : Type} (p : α → Bool) :
    ∀ (l : List α) (x : α), x ∈ l.takeWhile p → p x = true := by
  intro l
  induction l with
  | nil => intro x hx; simp [List.takeWhile] at hx
  | cons y ys ih =>
      intro x hx
      rw [List.takeWhile_cons] at hx
      by_cases hy : p y = true
      · rw [if_pos hy] at hx
        rcases List.mem_cons.mp hx with h | h
        · subst h; exact hy
        · exact ih x h
      · rw [if_neg hy] at hx
        simp at hx

/-- The head of a `dropWhile` result fails the predicate. -/
theorem dropWhileHeadFalse {α : Type} (p : α → Bool) :
    ∀ (l : List α) (b : α) (rest : List α), l.dropWhile p = b :: rest → p b = false := by
  intro l
  induction l with
  | nil => intro b rest h; simp [List.dropWhile] at h
  | cons x xs ih =>
      intro b rest h
      by_cases hx : p x = true
      · rw [List.dropWhile_cons, if_pos hx] at h
        exact ih b rest h
      · rw [List.dropWhile_cons, if_neg hx] at h
        cases h
        exact Bool.eq_false_iff.mpr hx

/-- Rendering of the pending entry and increment against the rest of
the input, as the claim side sees it (proof infrastructure). -/
def pendRender (a : String) (inc : Nat) (rest : List String) : List String :=
  let k := (rest.takeWhile (fun x => x = a)).length
  let rest2 := rest.dropWhile (fun x => x = a)
  if rest2.isEmpty then [a]
  else
    (if k + inc > 0 then a ++ " (x" ++ toString (k + inc + 1) ++ ")" else a) ::
      claimCompressFuel rest2.length rest2

/-- At increment zero the pending rendering is one claim-side step. -/
theorem pendRender_zero (b : String) (rest : List String) :
    pendRender b 0 rest = claimCompressFuel (rest.length + 1) (b :: rest) := by
  simp only [pendRender, claimCompressFuel, Nat.add_zero]
  split
  · rfl
  · rw [claimCompressFuel_congr (rest.dropWhile (fun x => x = b)).length rest.length _
      le_rfl (lengthDropWhileLe _ _)]

/-- The compression loop with a pending entry computes the claim-side
rendering of that pending entry against the rest of the input. -/
theorem compressLoop_pend :
    ∀ (fuel : Nat) (rest : List String), rest.length ≤ fuel →
      ∀ (a : String) (inc : Nat) (done : List String),
        compressLoop rest done (some a) inc = done ++ pendRender a inc rest := by
  intro fuel
  induction fuel with
  | zero =>
      intro rest h a inc done
      have : rest = [] := List.eq_nil_of_length_eq_zero (Nat.le_zero.mp h)
      subst this
      simp [compressLoop, pendRender]
  | succ fuel ih =>
      intro rest hlen a inc done
      have hall : ∀ x ∈ rest.takeWhile (fun x => x = a), x = a := by
        intro x hx
        exact of_decide_eq_true (memTakeWhile (fun x => decide (x = a)) rest x hx)
      have htw : rest.takeWhile (fun x => x = a) =
          List.replicate (rest.takeWhile (fun x => x = a)).length a :=
        List.eq_replicate_of_mem hall
      have hsplit : List.replicate (rest.takeWhile (fun x => x = a)).length a ++
          rest.dropWhile (fun x => x = a) = rest := by
        conv_rhs => rw [← List.takeWhile_append_dropWhile (fun x => x = a) rest]
        rw [← htw]
      conv_lhs => rw [← hsplit]
      rw [compressLoop_run]
      cases hrest2 : rest.dropWhile (fun x => x = a) with
      | nil =>
          show done ++ [a] = done ++ pendRender a inc rest
          simp [pendRender, hrest2]
      | cons b rest3 =>
          have hba : ¬(b = a) := by
            have := dropWhileHeadFalse (fun x => x = a) rest b rest3 hrest2
            simpa using this
          have hlen3 : rest3.length ≤ fuel := by
            have h1 : (rest.dropWhile (fun x => x = a)).length ≤ rest.length :=
              lengthDropWhileLe _ _
            rw [hrest2] at h1
            simp only [List.length_cons] at h1 hlen
            omega
          have hstep : compressLoop (b :: rest3) done (some a)
              (inc + (rest.takeWhile (fun x => x = a)).length) =
              if inc + (rest.takeWhile (fun x => x = a)).length > 0 then
                compressLoop rest3
                  (done ++ [a ++ " (x" ++
                    toString (inc + (rest.takeWhile (fun x => x = a)).length + 1) ++ ")"])
                  (some b) 0
              else compressLoop rest3 (done ++ [a]) (some b) 0 := by
            simp [compressLoop, hba]
          rw [hstep]
          have hrhs : pendRender a inc rest =
              (if (rest.takeWhile (fun x => x = a)).length + inc > 0 then
                a ++ " (x" ++ toString ((rest.takeWhile (fun x => x = a)).length + inc + 1) ++ ")"
              else a) :: claimCompressFuel (rest3.length + 1) (b :: rest3) := by
            simp only [pendRender, hrest2, List.isEmpty_cons, List.length_cons]
            rw [if_neg (by simp)]
          rw [hrhs]
          by_cases hpos : inc + (rest.takeWhile (fun x => x = a)).length > 0
          · rw [if_pos hpos, ih rest3 hlen3 b 0, pendRender_zero,
              if_pos (by omega : (rest.takeWhile (fun x => x = a)).length + inc > 0),
              Nat.add_comm inc (rest.takeWhile (fun x => x = a)).length]
            simp
          · rw [if_neg hpos, ih rest3 hlen3 b 0, pendRender_zero,
              if_neg (by omega : ¬(rest.takeWhile (fun x => x = a)).length + inc > 0)]
            simp

/-- The compression loop of the source equals the claim-side run-length
compression. -/
theorem compressLoop_eq_claim (xs : List String) :
    compressLoop xs [] none 0 = claimCompress xs := by
  cases xs with
  | nil => rfl
  | cons a rest =>
      have h1 : compressLoop (a :: rest) [] none 0 =
          compressLoop rest [] (some a) 0 := by
        simp [compressLoop]
      rw [h1, compressLoop_pend rest.length rest le_rfl a 0 [], pendRender_zero]
      simp [claimCompress]

/-- The display transform of the source equals the claim-side display
transform. -/
theorem logsDisplay_eq_claim (fmt : Int → String) (entries : List DiagEvent) :
    logsDisplay fmt entries = claimLogsDisplay fmt entries := by
  unfold logsDisplay claimLogsDisplay
  rw [compressLoop_eq_claim]

/-! ## Whitespace-only input -/

/-- Trimming a list of whitespace characters leaves nothing. -/
theorem jsTrim_all_ws (l : List Char) (h : ∀ c ∈ l, jsIsWs c = true) :
    jsTrim l = [] := by
  unfold jsTrim
  have h1 : l.dropWhile jsIsWs = [] := by
    rw [List.dropWhile_eq_nil_iff]
    exact h
  rw [h1]
  rfl

/-- The pipeline scan emits no stage from input made of whitespace and
pipes, whatever whitespace is already accumulated. -/
theorem parsePipelineAux_blank :
    ∀ (l : List Char), (∀ c ∈ l, jsIsWs c = true ∨ c = '|') →
      ∀ (cur : List Char), (∀ c ∈ cur, jsIsWs c = true) →
      ∀ (parts : List String),
        parsePipelineAux l false false false cur parts = parts := by
  intro l
  induction l with
  | nil =>
      intro _ cur hcur parts
      simp [parsePipelineAux, jsTrim_all_ws cur hcur]
  | cons c rest ih =>
      intro h cur hcur parts
      have hrest : ∀ x ∈ rest, jsIsWs x = true ∨ x = '|' :=
        fun x hx => h x (List.mem_cons_of_mem c hx)
      rcases h c (List.mem_cons_self c rest) with hws | hpipe
      · have hb : ¬(c = '\\') := fun e => by subst e; exact absurd hws (by decide)
        have hq1 : ¬(c = '\'') := fun e => by subst e; exact absurd hws (by decide)
        have hq2 : ¬(c = '"') := fun e => by subst e; exact absurd hws (by decide)
        have hp : ¬(c = '|') := fun e => by subst e; exact absurd hws (by decide)
        have hcur2 : ∀ x ∈ cur ++ [c], jsIsWs x = true := by
          intro x hx
          rcases List.mem_append.mp hx with hx | hx
          · exact hcur x hx
          · rcases List.mem_singleton.mp hx with rfl
            exact hws
        simp only [parsePipelineAux, if_neg, hb, hq1, hq2, hp, false_and,
          and_false, if_false, Bool.false_eq_true, not_false_eq_true]
        exact ih hrest (cur ++ [c]) hcur2 parts
      · subst hpipe
        have hred : parsePipelineAux ('|' :: rest) false false false cur parts =
            parsePipelineAux rest false false false []
              (if jsTrim cur ≠ [] then parts ++ [String.mk (jsTrim cur)] else parts) := rfl
        rw [hred, jsTrim_all_ws cur hcur]
        rw [if_neg (by simp)]
        exact ih hrest [] (fun x hx => absurd hx (List.not_mem_nil x)) parts

/-! ## The positional loop on a missing required argument -/

/-- When position `i` of the positional schema holds a required
parameter past the end of the supplied arguments, and no earlier
parameter trips first (each earlier required parameter has its
argument, each earlier `options` list is satisfied), the loop fails
with the missing-argument message naming that parameter.  Nothing here
constrains `pipeableFrom`, which the loop never reads. -/
theorem checkPositionals_missing (args : List String) :
    ∀ (ps : List SchemaParam) (idx i : Nat) (par : SchemaParam),
      ps[i]? = some par →
      par.required = true →
      args.length ≤ idx + i →
      (∀ j pj, j < i → ps[j]? = some pj →
        (pj.required = true → idx + j < args.length) ∧
        (pj.options = none ∨
          ∃ a opts, args[idx + j]? = some a ∧ pj.options = some opts ∧ a ∈ opts)) →
      checkPositionals args ps idx =
        some ("Missing required argument: \"" ++ par.name ++ "\"") := by
  intro ps
  induction ps with
  | nil => intro idx i par hpar; simp at hpar
  | cons p rest ih =>
      intro idx i par hpar hreq hlen hprev
      cases i with
      | zero =>
          simp only [List.getElem?_cons_zero, Option.some_inj] at hpar
          subst hpar
          unfold checkPositionals
          rw [if_pos ⟨hreq, by omega⟩]
      | succ i0 =>
          have h0 := hprev 0 p (Nat.succ_pos i0) (by simp)
          have hrest : rest[i0]? = some par := by simpa using hpar
          have hcond : ¬(p.required = true ∧ args.length ≤ idx) := by
            rintro ⟨hr, hle⟩
            have := h0.1 hr
            omega
          have hprev2 : ∀ j pj, j < i0 → rest[j]? = some pj →
              (pj.required = true → (idx + 1) + j < args.length) ∧
              (pj.options = none ∨
                ∃ a opts, args[(idx + 1) + j]? = some a ∧ pj.options = some opts ∧ a ∈ opts) := by
            intro j pj hj hpj
            have hidx : idx + (j + 1) = (idx + 1) + j := by omega
            have h := hprev (j + 1) pj (by omega) (by simpa using hpj)
            refine ⟨fun hr => by have := h.1 hr; omega, ?_⟩
            rcases h.2 with hnone | ⟨a, opts, ha, ho, hm⟩
            · exact Or.inl hnone
            · exact Or.inr ⟨a, opts, by rw [← hidx]; exact ha, ho, hm⟩
          have htail := ih (idx + 1) i0 par hrest hreq (by omega) hprev2
          unfold checkPositionals
          rw [if_neg hcond]
          cases hopt : p.options with
          | none =>
              simp only [hopt]
              exact htail
          | some opts =>
              have hmem : optsOk opts args idx = true := by
                rcases h0.2 with hnone | ⟨a, opts2, ha, ho, hm⟩
                · rw [hopt] at hnone; cases hnone
                · rw [hopt] at ho
                  cases ho
                  unfold optsOk
                  have ha0 : args[idx]? = some a := by
                    have hz : idx + 0 = idx := by omega
                    rw [← hz]; exact ha
                  rw [ha0]
                  exact List.elem_iff.mpr hm
              simp only [hopt]
              rw [if_neg (by simp [hmem])]
              exact htail
/-! ## Claims -/

/-- C1: for every sequence of queue events, at most one chain is running
at any instant and chains run in strict FIFO order.  The first conjunct
says that while a chain `b` is in the (single) running slot, every chain
started before it has already had its result resolved — so a chain
starts only after the previous one fully resolved.  The second conjunct
says starts and still-queued chains form a subsequence of the enqueue
history, so the start order is the enqueue order. -/
theorem c1_single_flight_fifo (events : List ExecEvent) :
    (execRun events).started =
      (execRun events).resolved ++ (execRun events).running.toList ∧
    ((execRun events).started ++ (execRun events).queue).Sublist
      (execRun events).enqHist :=
  ⟨(execRun_inv events).1, (execRun_inv events).2.1⟩

/-- C2 counterexample: the claim says any handler result other than a
line-kind single or a sequence becomes `null`, but `runChain` keeps
`pipe = result ?? null` (line 1146): a single `html`-kind output line
passes through as the pipe value instead of becoming `null`. -/
theorem c2_nonline_single_counterexample :
    runChainFrom
      (fun _ _ => .ok (.single { type := "html", content := "x", loc := some "" }))
      false [{ name := some "g", args := [], flags := [] }] .null =
      .ok (.single { type := "html", content := "x", loc := some "" }) ∧
    PipeValue.single { type := "html", content := "x", loc := some "" } ≠
      PipeValue.null := by
  decide

/-- Conversion of a handler result into the next pipe value as the
amended claim states it: a line-kind single wraps into a one-element
sequence, a sequence passes through unchanged, no result becomes
`null`, and any other single output line passes through unchanged. -/
def claimConvert : HandlerResult → PipeValue
  | .empty => .null
  | .seq ls => .seq ls
  | .single l => if l.type = "line" then .seq [l] else .single l

/-- C2 (amended): running a one-fragment chain whose handler settles
with `r` from any previous pipe value yields exactly the amended
conversion of `r` as the next pipe value. -/
theorem c2_conversion_amended (r : HandlerResult) (frag : Fragment) (prev : PipeValue) :
    runChainFrom (fun _ _ => .ok r) false [frag] prev = .ok (claimConvert r) := by
  cases r with
  | empty => rfl
  | single l =>
      by_cases h : l.type = "line" <;>
        simp [runChainFrom, nextPipe, claimConvert, h]
  | seq ls => rfl

/-- C3 counterexample: interrupting the in-flight chain 0 resolves it
and empties the queue, but the stored reject hook is never invoked
(`rejected` stays empty, contradicting the claim), and the chain
enqueued after the interrupt is not started when the cancelled run
settles. -/
theorem c3_reject_hook_counterexample :
    (execRun [.enqueue 0, .interrupt, .enqueue 1, .finish]).rejected = [] ∧
    (execRun [.enqueue 0, .interrupt, .enqueue 1, .finish]).resolved = [0] ∧
    (execRun [.enqueue 0, .interrupt, .enqueue 1, .finish]).running = none ∧
    (execRun [.enqueue 0, .interrupt, .enqueue 1, .finish]).started = [0] ∧
    (execRun [.enqueue 0, .interrupt, .enqueue 1, .finish]).queue = [1] := by
  decide

/-- C3 (amended): `interrupt` while chain `b` is mid-flight empties the
pending queue and aborts the current controller so that the pending
result resolves (with `null`) when the run settles; it does not start
the next queued chain (`started` is unchanged by the settling step);
and the stored reject hook is never invoked on any event sequence. -/
theorem c3_interrupt_amended :
    (∀ events : List ExecEvent, (execRun events).rejected = []) ∧
    (∀ (s : ExecState) (b : Nat), s.enabled = true → s.running = some b →
      execStep s .interrupt = { s with queue := [], aborted := true } ∧
      execStep { s with queue := [], aborted := true } .finish =
        { s with queue := [], aborted := true, running := none,
                 resolved := s.resolved ++ [b] }) := by
  constructor
  · intro events
    exact (execRun_inv events).2.2
  · intro s b he hr
    constructor
    · simp [execStep, he, hr]
    · simp [execStep, hr]

/-- C3 amended, witnessed at a concrete mid-flight state. -/
theorem c3_interrupt_amended_witness :
    (execRun [.enqueue 0]).rejected = [] ∧
    execStep { queue := [1], running := some 0, aborted := false, enabled := true,
               enqHist := [0, 1], started := [0], resolved := [], rejected := [] }
        .interrupt =
      { queue := [], running := some 0, aborted := true, enabled := true,
        enqHist := [0, 1], started := [0], resolved := [], rejected := [] } ∧
    execStep { queue := [], running := some 0, aborted := true, enabled := true,
               enqHist := [0, 1], started := [0], resolved := [], rejected := [] }
        .finish =
      { queue := [], running := none, aborted := true, enabled := true,
        enqHist := [0, 1], started := [0], resolved := [0], rejected := [] } :=
  ⟨c3_interrupt_amended.1 [.enqueue 0],
   (c3_interrupt_amended.2
     { queue := [1], running := some 0, aborted := false, enabled := true,
       enqHist := [0, 1], started := [0], resolved := [], rejected := [] } 0 rfl rfl).1,
   (c3_interrupt_amended.2
     { queue := [1], running := some 0, aborted := false, enabled := true,
       enqHist := [0, 1], started := [0], resolved := [], rejected := [] } 0 rfl rfl).2⟩

/-- C4: registering `print` twice in a row from the defined-but-empty
registration state leaves TWO pairs for `print` in the Registration
Set, not one.  The idempotence guard `registeredCommands.has(name)`
(line 327) tests the string against the stored `Set` objects and is
never true, so the second call appends a second pair. -/
theorem c4_register_twice_not_idempotent :
    (registerCommand definedRegistry "print" >>= fun r1 =>
        registerCommand r1 "print").map
      (fun r => r.registered.filter (fun pair => pair.contains "print")) =
      .ok [["print"], ["print"]] ∧
    (registerCommand definedRegistry "print" >>= fun r1 =>
        registerCommand r1 "print").map
      (fun r => (r.registered.filter (fun pair => pair.contains "print")).length) =
      .ok 2 := by
  decide

/-- C5: pipeline splitting treats `|` as a stage separator only outside
quotes: `a | b | c` yields exactly the three stages, and `"a|b"`, whose
pipe is inside double quotes, yields a single stage. -/
theorem c5_pipe_splitting :
    parsePipeline "a | b | c" = ["a", "b", "c"] ∧
    (parsePipeline "a | b | c").length = 3 ∧
    parsePipeline "\"a|b\"" = ["\"a|b\""] ∧
    (parsePipeline "\"a|b\"").length = 1 := by
  decide

/-- C6: for a defined command whose positional schema has a required
parameter at position `i` past the supplied arguments — no earlier
positional failing first — `verify` returns `valid = false` with the
missing-required-argument error naming that parameter.  The schema
entry `par` is arbitrary apart from `required`, so a `pipeableFrom`
attribute (as on `print`'s `text`, see the witness) does not exempt the
parameter. -/
theorem c6_missing_required_argument
    (reg : CmdRegistry) (name : String) (body : CmdBody) (args : List String)
    (flags : Flags) (i : Nat) (par : SchemaParam)
    (henabled : reg.enabled = true)
    (hbody : mapGet reg.commands name = some body)
    (hpar : (body.schema.filter (fun s => s.ptype = "positional"))[i]? = some par)
    (hreq : par.required = true)
    (hlen : args.length ≤ i)
    (hprev : ∀ j pj, j < i →
      (body.schema.filter (fun s => s.ptype = "positional"))[j]? = some pj →
      (pj.required = true → j < args.length) ∧
      (pj.options = none ∨
        ∃ a opts, args[j]? = some a ∧ pj.options = some opts ∧ a ∈ opts)) :
    verify reg (some name) args flags =
      some { valid := false,
             error := some ("Missing required argument: \"" ++ par.name ++ "\""),
             flags := flags, registry := reg } := by
  have hprev0 : ∀ j pj, j < i →
      (body.schema.filter (fun s => s.ptype = "positional"))[j]? = some pj →
      (pj.required = true → 0 + j < args.length) ∧
      (pj.options = none ∨
        ∃ a opts, args[0 + j]? = some a ∧ pj.options = some opts ∧ a ∈ opts) := by
    intro j pj hj hpj
    have h := hprev j pj hj hpj
    have hz : 0 + j = j := by omega
    rw [hz]
    exact h
  have hm := checkPositionals_missing args
    (body.schema.filter (fun s => s.ptype = "positional")) 0 i par hpar hreq
    (by omega) hprev0
  unfold verify
  rw [if_neg (by simp [henabled])]
  have hget : mapGetOpt reg.commands (some name) = some body := by
    simp [mapGetOpt, hbody]
  simp only [hget, hm]

/-- C6, witnessed on the built-in `print` command: its required `text`
parameter declares `pipeableFrom`, and verification with no arguments
still fails naming `text`. -/
theorem c6_missing_required_argument_witness :
    verify builtinRegistry (some "print") [] [] =
      some { valid := false,
             error := some ("Missing required argument: \"" ++ "text" ++ "\""),
             flags := [], registry := builtinRegistry } :=
  c6_missing_required_argument builtinRegistry "print"
    { description := some "Prints the provided arguments to the console",
      schema := printSchema }
    [] [] 0
    { ptype := "positional", name := "text",
      description := some "The text to print",
      required := true, pipeableFrom := some "text" }
    (by decide) (by decide) (by decide) rfl (by decide)
    (fun j pj hj _ => absurd hj (by omega))

/-- C7: parsing and executing `service disable commandexec` with no
`--confirm` flag throws an `OSError` whose error-kind line names the
service as critical, and the execution service's enabled flag stays
`true` — for every timestamp formatter, since the `logs` branch is not
taken. -/
theorem c7_disable_commandexec_without_confirm :
    parseCommand "service disable commandexec" =
      [{ name := some "service", args := ["disable", "commandexec"], flags := [] }] ∧
    ∀ fmt : Int → String,
      runSingleService fmt
        { name := some "service", args := ["disable", "commandexec"], flags := [] }
        false builtinRegistry
        { output := true, commandexec := true, command := true,
          diagnostic := true, savior := true } [] =
      (.error (.os "The \"commandexec\" service is critical for the operation of the OS. Use --confirm flag to confirm that you want to disable it."),
        { output := true, commandexec := true, command := true,
          diagnostic := true, savior := true }, []) := by
  refine ⟨by decide, fun fmt => ?_⟩
  rfl

/-- C8 counterexample: on a log whose last two entries repeat, the
display keeps the collapsed trailing line `c` WITHOUT the `(x2)` suffix
the claim requires, and the timestamp `T1`, although repeated from the
first line, is kept visible on the last line (only consecutive repeats
are blanked) — contradicting both display clauses of the claim. -/
theorem c8_display_counterexample :
    logsDisplay (fun t => if t = 1 then "T1" else "T2")
      [{ action := "a", timestamp := 1 }, { action := "a", timestamp := 1 },
       { action := "b", timestamp := 2 }, { action := "c", timestamp := 1 },
       { action := "c", timestamp := 1 }] =
      [ { type := "line", content := "a (x2)", loc := some "[T1]" },
        { type := "line", content := "b", loc := some "[T2]" },
        { type := "line", content := "c", loc := some "[T1]" } ] ∧
    ("c" : String) ≠ "c (x2)" ∧
    (some "[T1]" : Option String) ≠ some "[  ]" := by
  decide

/-- C8 (amended): with `--clear` absent, the `logs` branch of the
`service` handler leaves the diagnostics log unchanged and returns the
claim-side display: maximal runs of identical formatted lines collapse
into their first line, carrying a `(xN)` suffix when another line
follows the run and no suffix when the run ends the log; a line whose
timestamp equals the most recently kept timestamp is blanked. -/
theorem c8_logs_display_amended (fmt : Int → String) (flags : Flags) (sv : Services)
    (diag : List DiagEvent)
    (hclear : (flags.get "clear").elim false FlagVal.truthy = false) :
    serviceFn fmt ["logs"] flags sv diag =
      (.seq (claimLogsDisplay fmt diag), sv, diag) := by
  have h1 : serviceFn fmt ["logs"] flags sv diag =
      (.seq (logsDisplay fmt
          (if (flags.get "clear").elim false FlagVal.truthy then [] else diag)),
        sv,
        (if (flags.get "clear").elim false FlagVal.truthy then [] else diag)) := rfl
  rw [h1, hclear]
  simp only [Bool.false_eq_true, if_false]
  rw [logsDisplay_eq_claim]

/-- C8 amended, witnessed on a concrete three-entry log with a leading
run: the run collapses with its suffix, the repeated timestamp is
blanked, and the log comes back unchanged. -/
theorem c8_logs_display_amended_witness :
    serviceFn (fun _ => "T") ["logs"] []
      { output := true, commandexec := true, command := true,
        diagnostic := true, savior := true }
      [{ action := "a", timestamp := 0 }, { action := "a", timestamp := 0 },
       { action := "b", timestamp := 0 }] =
      (.seq (claimLogsDisplay (fun _ => "T")
          [{ action := "a", timestamp := 0 }, { action := "a", timestamp := 0 },
           { action := "b", timestamp := 0 }]),
        { output := true, commandexec := true, command := true,
          diagnostic := true, savior := true },
        [{ action := "a", timestamp := 0 }, { action := "a", timestamp := 0 },
         { action := "b", timestamp := 0 }]) ∧
    claimLogsDisplay (fun _ => "T")
      [{ action := "a", timestamp := 0 }, { action := "a", timestamp := 0 },
       { action := "b", timestamp := 0 }] =
      [ { type := "line", content := "a (x2)", loc := some "[T]" },
        { type := "line", content := "b", loc := some "[ ]" } ] :=
  ⟨c8_logs_display_amended (fun _ => "T") [] _ _ rfl, by decide⟩

/-- The write-back of verification into a fragment: `OS.runSingle`
passes `fragment.flags` to `verify` (line 1158), whose coercion
assigns into that same object (line 420); nothing in the engine or
registry assigns to `fragment.name` or `fragment.args`. -/
def verifyFragment (reg : CmdRegistry) (frag : Fragment) : Fragment :=
  match verify reg frag.name frag.args frag.flags with
  | none => frag
  | some out => { frag with flags := out.flags }

/-- C9 counterexample: verifying `service list` with the supplied flag
`confirm="1"` overwrites the fragment's flag value in place with the
number `1` (the numeric-pattern coercion of line 420), so the fragment
is not immutable under schema verification. -/
theorem c9_coercion_mutates_flags :
    (verifyFragment builtinRegistry
      { name := some "service", args := ["list"],
        flags := [("confirm", .str "1")] }).flags =
      [("confirm", .num (some 1))] ∧
    [("confirm", FlagVal.num (some 1))] ≠ [("confirm", FlagVal.str "1")] := by
  decide

/-- C9 (amended): no engine or registry operation modifies a fragment's
name or args — for every registry and fragment, verification leaves
them untouched — but verification's flag-value coercion does rewrite
the fragment's flags mapping in place, as at the concrete fragment of
the second conjunct. -/
theorem c9_fragment_frame_amended :
    (∀ (reg : CmdRegistry) (frag : Fragment),
      (verifyFragment reg frag).name = frag.name ∧
      (verifyFragment reg frag).args = frag.args) ∧
    verifyFragment builtinRegistry
      { name := some "service", args := ["list"],
        flags := [("confirm", .str "1")] } =
      { name := some "service", args := ["list"],
        flags := [("confirm", .num (some 1))] } := by
  constructor
  · intro reg frag
    unfold verifyFragment
    cases verify reg frag.name frag.args frag.flags <;> exact ⟨rfl, rfl⟩
  · decide

/-- C10: an input line made only of whitespace and pipe characters
parses to a chain with zero fragments, and running that chain — under
ANY per-fragment step, so no handler is ever invoked — succeeds (no
error), resolves with the `null` pipe value, and forwards no output
lines. -/
theorem c10_blank_input (input : String)
    (runSingleF : Fragment → PipeValue → Except RunErr HandlerResult)
    (h : ∀ c ∈ input.data, jsIsWs c = true ∨ c = '|') :
    parseCommand input = [] ∧
    runChain runSingleF false (parseCommand input) = .ok (.null, []) := by
  have hp : parsePipeline input = [] :=
    parsePipelineAux_blank input.data h []
      (fun x hx => absurd hx (List.not_mem_nil x)) []
  have hc : parseCommand input = [] := by
    unfold parseCommand
    rw [hp]
    rfl
  refine ⟨hc, ?_⟩
  rw [hc]
  rfl

/-- C10, witnessed on a whitespace-and-pipes line against a step
function that fails on every fragment: it is never consulted. -/
theorem c10_blank_input_witness :
    parseCommand " \t | |  " = [] ∧
    runChain (fun _ _ => .error .unexpected) false (parseCommand " \t | |  ") =
      .ok (.null, []) :=
  c10_blank_input " \t | |  " (fun _ _ => .error .unexpected) (by decide)
end SwagOS
